import Mathlib

/-!
Shallow embedding of the cryptographic-agility layer of rustls:
certificate compression adapters (`src/rustls/src/compress.rs`), the
SHA-256 hash provider (`src/libcrux-provider/src/hash.rs`), and the
signing-key / certified-key abstractions (`src/rustls/src/crypto/signer.rs`).

Bytes are modelled as `List Nat`; machine `usize` lengths as `Nat`.
The backend compression engines (the `zlib-rs` and `brotli` crates) and
the libcrux SHA-256 core are not part of this repository; they are
modelled from the spec as abstract backends satisfying the contract the
spec states for them.
-/

namespace Rustls

/-- The certificate-compression algorithm identifiers
(`CertificateCompressionAlgorithm` from `enums.rs`, referenced by
`compress.rs`). -/
inductive CertificateCompressionAlgorithm : Type
  | Zlib
  | Brotli
deriving DecidableEq

/-- Compression-effort hint, from `compress.rs` (`CompressionLevel`). -/
inductive CompressionLevel : Type
  | Interactive
  | Amortized
deriving DecidableEq

/-- Content-less decompression error, from `compress.rs` (`DecompressionFailed`). -/
inductive DecompressionFailed : Type
  | mk
deriving DecidableEq

/-- Content-less compression error, from `compress.rs` (`CompressionFailed`). -/
inductive CompressionFailed : Type
  | mk
deriving DecidableEq

/-- Return codes of the zlib-rs style backend calls
(`zlib_rs::ReturnCode`), restricted to the cases the adapters in
`compress.rs` distinguish: `Ok` versus everything else. -/
inductive ReturnCode : Type
  | Ok
  | BufError
  | DataError
  | MemError
deriving DecidableEq

/-- Modelled from the spec: an abstract compression backend (the
`zlib-rs` / `brotli` engines live outside this repository).  The spec
(§4.3) requires of a backend that a compressor and its paired
decompressor be exact inverses on every compressor-producible output,
and that a worst-case output bound exists for sizing compression
buffers.  `compress` is the backend compression routine (taking the
effort level), `plain` gives the unique plaintext a compressed byte
sequence decodes to (or `none` for malformed/garbage input), and
`compress_bound` is the worst-case compressed-size bound. -/
structure Codec : Type where
  compress : List Nat → CompressionLevel → Option (List Nat)
  plain : List Nat → Option (List Nat)
  compress_bound : Nat → Nat
  compress_plain : ∀ i l c, compress i l = some c → plain c = some i
  compress_le_bound : ∀ i l c, compress i l = some c → c.length ≤ compress_bound i.length

/-- Modelled from the spec: `zlib_rs::inflate::uncompress_slice`.
Decodes `input` into a buffer of `output.length` bytes: on valid input
whose plaintext fits, it fills the buffer with the plaintext and
reports `Ok`; a too-small buffer reports `BufError`; malformed input
reports `DataError`. -/
def uncompress_slice (c : Codec) (output input : List Nat) : List Nat × ReturnCode :=
  match c.plain input with
  | some p =>
      if p.length ≤ output.length then (p, ReturnCode.Ok)
      else (p.take output.length, ReturnCode.BufError)
  | none => ([], ReturnCode.DataError)

/-- Modelled from the spec: `zlib_rs::deflate::compress_slice`.
Compresses `input` into a buffer of `output.length` bytes, reporting
`Ok` when the compressed bytes fit and an error otherwise; a backend
failure reports `MemError`. -/
def compress_slice (c : Codec) (output input : List Nat) (level : CompressionLevel) :
    List Nat × ReturnCode :=
  match c.compress input level with
  | some out =>
      if out.length ≤ output.length then (out, ReturnCode.Ok)
      else (out.take output.length, ReturnCode.BufError)
  | none => ([], ReturnCode.MemError)

namespace ZlibRsDecompressor

/-- `ZlibRsDecompressor::decompress` from `compress.rs`: runs
`uncompress_slice` on the caller buffer and succeeds exactly when the
return code is `Ok` and the filled slice has the buffer's full length.
The returned list is the filled output buffer. -/
def decompress (c : Codec) (input output : List Nat) :
    Except DecompressionFailed (List Nat) :=
  let output_len := output.length
  match uncompress_slice c output input with
  | (output_filled, ReturnCode.Ok) =>
      if output_filled.length = output_len then Except.ok output_filled
      else Except.error DecompressionFailed.mk
  | (_, _) => Except.error DecompressionFailed.mk

/-- `ZlibRsDecompressor::algorithm` from `compress.rs`. -/
def algorithm : CertificateCompressionAlgorithm :=
  CertificateCompressionAlgorithm.Zlib

end ZlibRsDecompressor

namespace ZlibRsCompressor

/-- `ZlibRsCompressor::compress` from `compress.rs`: allocates an
output buffer of `compress_bound input.length` zero bytes, runs
`compress_slice` (the `level` selecting the deflate configuration),
fails unless the return code is `Ok`, and returns the buffer truncated
to the filled length (i.e. the filled slice). -/
def compress (c : Codec) (input : List Nat) (level : CompressionLevel) :
    Except CompressionFailed (List Nat) :=
  let output := List.replicate (c.compress_bound input.length) 0
  match compress_slice c output input level with
  | (output_filled, rc) =>
      if rc ≠ ReturnCode.Ok then Except.error CompressionFailed.mk
      else Except.ok output_filled

/-- `ZlibRsCompressor::algorithm` from `compress.rs`. -/
def algorithm : CertificateCompressionAlgorithm :=
  CertificateCompressionAlgorithm.Zlib

end ZlibRsCompressor

/-- Modelled from the spec: `brotli::BrotliDecompress` driving a write
cursor over the caller's `output` buffer.  On valid input whose
plaintext fits, it writes the plaintext at the start of the buffer and
returns the buffer contents together with the final cursor position;
on malformed input, or when the decoded stream overflows the buffer
(the cursor write fails), it returns `none`. -/
def BrotliDecompress (c : Codec) (input output : List Nat) :
    Option (List Nat × Nat) :=
  match c.plain input with
  | some p =>
      if p.length ≤ output.length then some (p ++ output.drop p.length, p.length)
      else none
  | none => none

namespace BrotliDecompressor

/-- `BrotliDecompressor::decompress` from `compress.rs`: runs
`BrotliDecompress` into a cursor over the caller buffer, fails on a
decode error, then fails unless the final cursor position equals the
buffer length.  The returned list is the buffer contents. -/
def decompress (c : Codec) (input output : List Nat) :
    Except DecompressionFailed (List Nat) :=
  match BrotliDecompress c input output with
  | none => Except.error DecompressionFailed.mk
  | some (buf, pos) =>
      if pos = output.length then Except.ok buf
      else Except.error DecompressionFailed.mk

/-- `BrotliDecompressor::algorithm` from `compress.rs`. -/
def algorithm : CertificateCompressionAlgorithm :=
  CertificateCompressionAlgorithm.Brotli

end BrotliDecompressor

namespace BrotliCompressor

/-- `BrotliCompressor::compress` from `compress.rs`: feeds `input`
through the backend compressor writer (`level` selecting the quality),
failing if the backend write fails, and returns the collected output. -/
def compress (c : Codec) (input : List Nat) (level : CompressionLevel) :
    Except CompressionFailed (List Nat) :=
  match c.compress input level with
  | some out => Except.ok out
  | none => Except.error CompressionFailed.mk

/-- `BrotliCompressor::algorithm` from `compress.rs`. -/
def algorithm : CertificateCompressionAlgorithm :=
  CertificateCompressionAlgorithm.Brotli

end BrotliCompressor

/-- The enabled decompressor implementations, as listed by
`default_cert_decompressors` in `compress.rs`: the brotli entry under
the `brotli` feature, then the zlib entry under the `zlib` feature. -/
inductive CertDecompressorImpl : Type
  | brotliImpl
  | zlibImpl
deriving DecidableEq

/-- `CertDecompressor::algorithm` of each enabled decompressor. -/
def CertDecompressorImpl.algorithm : CertDecompressorImpl → CertificateCompressionAlgorithm
  | CertDecompressorImpl.brotliImpl => BrotliDecompressor.algorithm
  | CertDecompressorImpl.zlibImpl => ZlibRsDecompressor.algorithm

/-- The enabled compressor implementations, as listed by
`default_cert_compressors` in `compress.rs`. -/
inductive CertCompressorImpl : Type
  | brotliImpl
  | zlibImpl
deriving DecidableEq

/-- `CertCompressor::algorithm` of each enabled compressor. -/
def CertCompressorImpl.algorithm : CertCompressorImpl → CertificateCompressionAlgorithm
  | CertCompressorImpl.brotliImpl => BrotliCompressor.algorithm
  | CertCompressorImpl.zlibImpl => ZlibRsCompressor.algorithm

/-- `default_cert_decompressors` from `compress.rs`.  The `cfg`
feature gates are modelled as boolean build parameters: the brotli
entry is present when the `brotli` feature is on, then the zlib entry
when the `zlib` feature is on, in that order. -/
def default_cert_decompressors (brotli zlib : Bool) : List CertDecompressorImpl :=
  (if brotli then [CertDecompressorImpl.brotliImpl] else []) ++
    (if zlib then [CertDecompressorImpl.zlibImpl] else [])

/-- `default_cert_compressors` from `compress.rs`, with the `cfg`
feature gates modelled as boolean build parameters. -/
def default_cert_compressors (brotli zlib : Bool) : List CertCompressorImpl :=
  (if brotli then [CertCompressorImpl.brotliImpl] else []) ++
    (if zlib then [CertCompressorImpl.zlibImpl] else [])

/-- A concrete backend satisfying the spec's backend contract, used to
exhibit the theorems below at concrete inputs: compression is the
identity. -/
def idCodec : Codec where
  compress i _ := some i
  plain c := some c
  compress_bound n := n
  compress_plain := by
    intro i l c h
    cases h
    rfl
  compress_le_bound := by
    intro i l c h
    cases h
    exact Nat.le_refl _

/-- A concrete backend on which every input is malformed (no byte
sequence decodes), used to exhibit garbage rejection concretely. -/
def noneCodec : Codec where
  compress _ _ := none
  plain _ := none
  compress_bound n := n
  compress_plain := by
    intro i l c h
    cases h
  compress_le_bound := by
    intro i l c h
    cases h

/-- Modelled from the spec: the libcrux `Sha2_256` streaming state
(the SHA-256 core lives outside this repository).  Per spec §3/§4.1 a
hash context's state "reflects exactly the bytes passed to update, in
order", so the state is the accumulated input; the digest function
itself is an abstract parameter of the operations that finish. -/
structure Sha2_256 : Type where
  acc : List Nat
deriving DecidableEq

/-- Modelled from the spec: `Sha2_256::new`, the empty accumulator. -/
def Sha2_256.new : Sha2_256 := ⟨[]⟩

/-- Modelled from the spec: `Sha2_256::update` appends bytes to the
accumulated input. -/
def Sha2_256.update (s : Sha2_256) (data : List Nat) : Sha2_256 :=
  ⟨s.acc ++ data⟩

/-- Modelled from the spec: `Sha2_256::clone`, an exact copy of the
accumulated state. -/
def Sha2_256.clone (s : Sha2_256) : Sha2_256 := s

/-- Modelled from the spec: `Sha2_256::finish` returns the digest of
the accumulated bytes; `digest` is the abstract SHA-256 compression of
a byte sequence. -/
def Sha2_256.finish (digest : List Nat → List Nat) (s : Sha2_256) : List Nat :=
  digest s.acc

/-- Modelled from the spec: the libcrux one-shot `sha2_256`, the
digest of exactly the given bytes. -/
def sha2_256 (digest : List Nat → List Nat) (data : List Nat) : List Nat :=
  digest data

/-- `Sha256Context` from `hash.rs`: a mutex-wrapped `Sha2_256` state.
The mutex exists only to permit cloning through a shared reference and
is scoped to each operation, so it is modelled by its contents. -/
structure Sha256Context : Type where
  state : Sha2_256
deriving DecidableEq

namespace Sha256

/-- `Sha256::start` from `hash.rs`: a fresh context over a new
`Sha2_256` state. -/
def start : Sha256Context := ⟨Sha2_256.new⟩

/-- `Sha256::hash` from `hash.rs`: the one-shot digest via the libcrux
`sha2_256` function. -/
def hash (digest : List Nat → List Nat) (data : List Nat) : List Nat :=
  sha2_256 digest data

/-- `Sha256::output_len` from `hash.rs`. -/
def output_len : Nat := 32

end Sha256

namespace Sha256Context

/-- `Sha256Context::fork_finish` from `hash.rs`: clones the locked
state and finishes the clone, leaving the context itself untouched. -/
def fork_finish (digest : List Nat → List Nat) (c : Sha256Context) : List Nat :=
  Sha2_256.finish digest (Sha2_256.clone c.state)

/-- `Sha256Context::fork` from `hash.rs`: clones the locked state into
a new independent context. -/
def fork (c : Sha256Context) : Sha256Context :=
  ⟨Sha2_256.clone c.state⟩

/-- `Sha256Context::finish` from `hash.rs`: consumes the context and
returns the digest of its accumulated state. -/
def finish (digest : List Nat → List Nat) (c : Sha256Context) : List Nat :=
  Sha2_256.finish digest c.state

/-- `Sha256Context::update` from `hash.rs`: appends bytes to the
state. -/
def update (c : Sha256Context) (data : List Nat) : Sha256Context :=
  ⟨Sha2_256.update c.state data⟩

end Sha256Context

/-- Signature-scheme identifiers (`SignatureScheme` from `enums.rs`,
referenced by `signer.rs`), restricted to a representative subset. -/
inductive SignatureScheme : Type
  | RSA_PKCS1_SHA256
  | RSA_PSS_SHA256
  | ECDSA_NISTP256_SHA256
  | ED25519
deriving DecidableEq

/-- Modelled from the spec: a `SigningKey` implementation (the trait
in `signer.rs` has no concrete implementation in this repository).
The key is characterised by the set of signature schemes it
supports. -/
structure SigningKey : Type where
  supported : List SignatureScheme
deriving DecidableEq

/-- Modelled from the spec: `SigningKey::choose_scheme` inspects the
key's supported schemes against the caller-offered ordered list and
returns a signer for the first offered scheme the key supports, or
nothing when no offered scheme is supported.  The produced signer is
represented by its fixed scheme (spec invariant 4: a signer always
reports the scheme it was produced for). -/
def SigningKey.choose_scheme (k : SigningKey) (offered : List SignatureScheme) :
    Option SignatureScheme :=
  offered.find? (fun s => k.supported.contains s)

/-- The rustls `Error` enum, restricted to the variant `signer.rs`
uses. -/
inductive Error : Type
  | NoCertificatesPresented
deriving DecidableEq

/-- A DER-encoded certificate (`CertificateDer` from pki-types),
modelled as its byte sequence. -/
abbrev CertificateDer : Type := List Nat

/-- `CertifiedKey` from `signer.rs`: a certificate chain, a signing
key, and an optional stapled OCSP response. -/
structure CertifiedKey : Type where
  cert : List CertificateDer
  key : SigningKey
  ocsp : Option (List Nat)

namespace CertifiedKey

/-- `CertifiedKey::new` from `signer.rs`: builds the aggregate with no
OCSP response.  It is a total function: construction never fails, for
any chain including the empty one. -/
def new (cert : List CertificateDer) (key : SigningKey) : CertifiedKey :=
  ⟨cert, key, none⟩

/-- `CertifiedKey::end_entity_cert` from `signer.rs`:
`self.cert.first().ok_or(Error::NoCertificatesPresented)`. -/
def end_entity_cert (k : CertifiedKey) : Except Error CertificateDer :=
  match k.cert.head? with
  | some c => Except.ok c
  | none => Except.error Error.NoCertificatesPresented

end CertifiedKey

/-! ## Theorems -/

/-- Helper: `find?` over a list whose prefix is rejected by the
predicate returns the first accepted element. -/
theorem find?_append_first (p : SignatureScheme → Bool) :
    ∀ (l1 l2 : List SignatureScheme) (s : SignatureScheme),
      (∀ t ∈ l1, p t = false) → p s = true → (l1 ++ s :: l2).find? p = some s := by
  intro l1
  induction l1 with
  | nil =>
      intro l2 s _ h2
      exact List.find?_cons_of_pos _ h2
  | cons a l ih =>
      intro l2 s h1 h2
      rw [List.cons_append, List.find?_cons_of_neg]
      · exact ih l2 s (fun t ht => h1 t (List.mem_cons_of_mem a ht)) h2
      · simp [h1 a (List.mem_cons_self a l)]

/-- Claim C1: for every enabled compression algorithm, both levels and
every input, if compression succeeds with output `out` then
decompressing `out` into a buffer of exactly the input's length
succeeds and fills the buffer with exactly the original input. -/
theorem C1_compress_decompress_roundtrip (c : Codec) (input out : List Nat)
    (level : CompressionLevel) :
    (ZlibRsCompressor.compress c input level = Except.ok out →
      ZlibRsDecompressor.decompress c out (List.replicate input.length 0) =
        Except.ok input) ∧
    (BrotliCompressor.compress c input level = Except.ok out →
      BrotliDecompressor.decompress c out (List.replicate input.length 0) =
        Except.ok input) := by
  constructor
  · intro h
    cases hc : c.compress input level with
    | none =>
        simp [ZlibRsCompressor.compress, compress_slice, hc] at h
    | some o =>
        have hb := c.compress_le_bound input level o hc
        have hp := c.compress_plain input level o hc
        simp only [ZlibRsCompressor.compress, compress_slice, hc,
          List.length_replicate] at h
        rw [if_pos hb] at h
        simp at h
        subst h
        simp only [ZlibRsDecompressor.decompress, uncompress_slice, hp,
          List.length_replicate]
        rw [if_pos (Nat.le_refl _)]
        simp
  · intro h
    cases hc : c.compress input level with
    | none =>
        simp [BrotliCompressor.compress, hc] at h
    | some o =>
        have hp := c.compress_plain input level o hc
        simp only [BrotliCompressor.compress, hc] at h
        injection h with h2
        subst h2
        simp only [BrotliDecompressor.decompress, BrotliDecompress, hp,
          List.length_replicate]
        rw [if_pos (Nat.le_refl _)]
        have hd : (List.replicate input.length (0 : Nat)).drop input.length = [] :=
          List.drop_eq_nil_of_le (by simp)
        rw [hd]
        simp

/-- Witness for C1 at a concrete backend and input. -/
theorem C1_compress_decompress_roundtrip_witness :
    ZlibRsDecompressor.decompress idCodec [1, 2] (List.replicate 2 0) =
      Except.ok [1, 2] ∧
    BrotliDecompressor.decompress idCodec [1, 2] (List.replicate 2 0) =
      Except.ok [1, 2] :=
  ⟨(C1_compress_decompress_roundtrip idCodec [1, 2] [1, 2]
      CompressionLevel.Interactive).1 rfl,
   (C1_compress_decompress_roundtrip idCodec [1, 2] [1, 2]
      CompressionLevel.Interactive).2 rfl⟩

/-- Claim C2: for every enabled algorithm, decompressing a valid
input whose plaintext length differs from the output buffer's length
fails with the content-less error (buffer larger or smaller alike),
and with a buffer of exactly the plaintext's length it succeeds and
fills the buffer exactly. -/
theorem C2_exact_size_enforced (c : Codec) (input p output : List Nat)
    (h : c.plain input = some p) :
    (output.length ≠ p.length →
      ZlibRsDecompressor.decompress c input output =
        Except.error DecompressionFailed.mk ∧
      BrotliDecompressor.decompress c input output =
        Except.error DecompressionFailed.mk) ∧
    (output.length = p.length →
      ZlibRsDecompressor.decompress c input output = Except.ok p ∧
      BrotliDecompressor.decompress c input output = Except.ok p) := by
  constructor
  · intro hne
    have hne' : p.length ≠ output.length := fun hq => hne hq.symm
    constructor
    · by_cases hle : p.length ≤ output.length
      · simp only [ZlibRsDecompressor.decompress, uncompress_slice, h]
        rw [if_pos hle]
        simp [hne']
      · simp only [ZlibRsDecompressor.decompress, uncompress_slice, h]
        rw [if_neg hle]
    · by_cases hle : p.length ≤ output.length
      · simp only [BrotliDecompressor.decompress, BrotliDecompress, h]
        rw [if_pos hle]
        simp [hne']
      · simp only [BrotliDecompressor.decompress, BrotliDecompress, h]
        rw [if_neg hle]
  · intro heq
    constructor
    · simp only [ZlibRsDecompressor.decompress, uncompress_slice, h]
      rw [if_pos (le_of_eq heq.symm)]
      simp [heq]
    · simp only [BrotliDecompressor.decompress, BrotliDecompress, h]
      rw [if_pos (le_of_eq heq.symm)]
      have hd : output.drop p.length = [] :=
        List.drop_eq_nil_of_le (le_of_eq heq)
      rw [hd]
      simp [heq]

/-- Witness for C2 at a concrete backend, with a buffer one byte
smaller than the plaintext. -/
theorem C2_exact_size_enforced_witness :
    ZlibRsDecompressor.decompress idCodec [1, 2, 3] [9, 9] =
      Except.error DecompressionFailed.mk ∧
    BrotliDecompressor.decompress idCodec [1, 2, 3] [9, 9] =
      Except.error DecompressionFailed.mk :=
  (C2_exact_size_enforced idCodec [1, 2, 3] [1, 2, 3] [9, 9] rfl).1 (by decide)

/-- Claim C3: after accumulating `A`, forking and updating only the
fork with `B` yields `digest (A ++ B)` from the fork while the
original still finishes to `digest A`; the fork call returns an exact
copy (the original is not consumed or mutated), and updates to either
context do not affect the other. -/
theorem C3_fork_independence (digest : List Nat → List Nat) (A B D : List Nat) :
    Sha256Context.finish digest
        (Sha256Context.update
          (Sha256Context.fork (Sha256Context.update Sha256.start A)) B) =
      digest (A ++ B) ∧
    Sha256Context.finish digest (Sha256Context.update Sha256.start A) =
      digest A ∧
    Sha256Context.fork (Sha256Context.update Sha256.start A) =
      Sha256Context.update Sha256.start A ∧
    Sha256Context.finish digest
        (Sha256Context.update (Sha256Context.update Sha256.start A) D) =
      digest (A ++ D) := by
  refine ⟨?_, ?_, ?_, ?_⟩ <;>
    simp [Sha256Context.finish, Sha256Context.update, Sha256Context.fork,
      Sha256.start, Sha2_256.new, Sha2_256.update, Sha2_256.clone,
      Sha2_256.finish]

/-- Witness for C3 at a concrete digest function and bytes. -/
theorem C3_fork_independence_witness :
    Sha256Context.finish id
        (Sha256Context.update
          (Sha256Context.fork (Sha256Context.update Sha256.start [1])) [2]) =
      id ([1] ++ [2]) ∧
    Sha256Context.finish id (Sha256Context.update Sha256.start [1]) = id [1] ∧
    Sha256Context.fork (Sha256Context.update Sha256.start [1]) =
      Sha256Context.update Sha256.start [1] ∧
    Sha256Context.finish id
        (Sha256Context.update (Sha256Context.update Sha256.start [1]) [3]) =
      id ([1] ++ [3]) :=
  C3_fork_independence id [1] [2] [3]

/-- Claim C4: after accumulating `A`, `fork_finish` returns
`digest A` without consuming or altering the context: a subsequent
`update B` followed by `finish` still yields `digest (A ++ B)`. -/
theorem C4_fork_finish_nondestructive (digest : List Nat → List Nat)
    (A B : List Nat) :
    Sha256Context.fork_finish digest (Sha256Context.update Sha256.start A) =
      digest A ∧
    Sha256Context.finish digest
        (Sha256Context.update (Sha256Context.update Sha256.start A) B) =
      digest (A ++ B) := by
  constructor <;>
    simp [Sha256Context.fork_finish, Sha256Context.finish,
      Sha256Context.update, Sha256.start, Sha2_256.new, Sha2_256.update,
      Sha2_256.clone, Sha2_256.finish]

/-- Witness for C4 at a concrete digest function and bytes. -/
theorem C4_fork_finish_nondestructive_witness :
    Sha256Context.fork_finish id (Sha256Context.update Sha256.start [4]) =
      id [4] ∧
    Sha256Context.finish id
        (Sha256Context.update (Sha256Context.update Sha256.start [4]) [5]) =
      id ([4] ++ [5]) :=
  C4_fork_finish_nondestructive id [4] [5]

/-- Claim C5: the one-shot `hash` equals the streaming
`start; update; finish` sequence on the same bytes. -/
theorem C5_one_shot_eq_streaming (digest : List Nat → List Nat)
    (data : List Nat) :
    Sha256.hash digest data =
      Sha256Context.finish digest (Sha256Context.update Sha256.start data) := by
  simp [Sha256.hash, sha2_256, Sha256Context.finish, Sha256Context.update,
    Sha256.start, Sha2_256.new, Sha2_256.update, Sha2_256.finish]

/-- Witness for C5 at a concrete digest function and bytes. -/
theorem C5_one_shot_eq_streaming_witness :
    Sha256.hash id [1, 2, 3] =
      Sha256Context.finish id (Sha256Context.update Sha256.start [1, 2, 3]) :=
  C5_one_shot_eq_streaming id [1, 2, 3]

/-- Claim C6: `choose_scheme` returns a signer for the first scheme in
the offered list that the key supports (offered-list order sets the
priority), and returns nothing exactly when no offered scheme is
supported. -/
theorem C6_choose_scheme_first_offered (k : SigningKey)
    (l1 l2 offered : List SignatureScheme) (s : SignatureScheme) :
    ((∀ t ∈ l1, t ∉ k.supported) → s ∈ k.supported →
      SigningKey.choose_scheme k (l1 ++ s :: l2) = some s) ∧
    (SigningKey.choose_scheme k offered = none ↔
      ∀ t ∈ offered, t ∉ k.supported) := by
  constructor
  · intro h1 h2
    have hp : ∀ t ∈ l1, (k.supported.contains t) = false := by
      intro t ht
      cases hb : k.supported.contains t with
      | false => rfl
      | true => exact absurd (List.elem_iff.mp hb) (h1 t ht)
    exact find?_append_first _ l1 l2 s hp (List.elem_iff.mpr h2)
  · simp only [SigningKey.choose_scheme]
    rw [List.find?_eq_none]
    constructor
    · intro hall t ht hmem
      exact hall t ht (List.elem_iff.mpr hmem)
    · intro hall t ht hb
      exact hall t ht (List.elem_iff.mp hb)

/-- Witness for C6: a key supporting schemes X and Y, offered the list
Y then X, chooses Y (the first offered match). -/
theorem C6_choose_scheme_first_offered_witness :
    SigningKey.choose_scheme
        ⟨[SignatureScheme.RSA_PSS_SHA256, SignatureScheme.ED25519]⟩
        [SignatureScheme.ED25519, SignatureScheme.RSA_PSS_SHA256] =
      some SignatureScheme.ED25519 :=
  (C6_choose_scheme_first_offered
      ⟨[SignatureScheme.RSA_PSS_SHA256, SignatureScheme.ED25519]⟩
      [] [SignatureScheme.RSA_PSS_SHA256] []
      SignatureScheme.ED25519).1 (by simp) (by simp)

/-- Claim C7: `CertifiedKey::new` never fails (it is total, even on an
empty chain); `end_entity_cert` on an empty chain fails with
`NoCertificatesPresented`, and on a non-empty chain returns exactly
the first element. -/
theorem C7_end_entity_cert_spec (key : SigningKey) (c : CertificateDer)
    (cs : List CertificateDer) :
    CertifiedKey.end_entity_cert (CertifiedKey.new [] key) =
      Except.error Error.NoCertificatesPresented ∧
    CertifiedKey.end_entity_cert (CertifiedKey.new (c :: cs) key) =
      Except.ok c :=
  ⟨rfl, rfl⟩

/-- Witness for C7 at concrete chains. -/
theorem C7_end_entity_cert_spec_witness :
    CertifiedKey.end_entity_cert (CertifiedKey.new [] ⟨[]⟩) =
      Except.error Error.NoCertificatesPresented ∧
    CertifiedKey.end_entity_cert (CertifiedKey.new [[0]] ⟨[]⟩) =
      Except.ok [0] :=
  C7_end_entity_cert_spec ⟨[]⟩ [0] []

/-- Claim C8: for every enabled algorithm, decompression of malformed
input (input no plaintext decodes from) fails regardless of the output
buffer's size. -/
theorem C8_garbage_rejected (c : Codec) (input output : List Nat)
    (h : c.plain input = none) :
    ZlibRsDecompressor.decompress c input output =
      Except.error DecompressionFailed.mk ∧
    BrotliDecompressor.decompress c input output =
      Except.error DecompressionFailed.mk := by
  constructor
  · simp [ZlibRsDecompressor.decompress, uncompress_slice, h]
  · simp [BrotliDecompressor.decompress, BrotliDecompress, h]

/-- Witness for C8: a backend on which all-zero input is malformed
rejects it for a concrete buffer. -/
theorem C8_garbage_rejected_witness :
    ZlibRsDecompressor.decompress noneCodec (List.replicate 4 0)
        (List.replicate 2 0) = Except.error DecompressionFailed.mk ∧
    BrotliDecompressor.decompress noneCodec (List.replicate 4 0)
        (List.replicate 2 0) = Except.error DecompressionFailed.mk :=
  C8_garbage_rejected noneCodec (List.replicate 4 0) (List.replicate 2 0) rfl

/-- Claim C9: the default compressor and decompressor lists have equal
length, enumerate the enabled algorithms in the same order, and agree
on the algorithm identifier at every index, for every combination of
the build features. -/
theorem C9_default_registries_aligned (brotli zlib : Bool) :
    (default_cert_compressors brotli zlib).length =
      (default_cert_decompressors brotli zlib).length ∧
    ∀ i : Nat,
      ((default_cert_compressors brotli zlib).get? i).map
          CertCompressorImpl.algorithm =
        ((default_cert_decompressors brotli zlib).get? i).map
          CertDecompressorImpl.algorithm := by
  cases brotli <;> cases zlib <;> refine ⟨rfl, fun i => ?_⟩ <;>
    match i with
    | 0 => rfl
    | 1 => rfl
    | n + 2 => rfl

/-- Witness for C9 with both features enabled. -/
theorem C9_default_registries_aligned_witness :
    (default_cert_compressors true true).length =
      (default_cert_decompressors true true).length ∧
    ∀ i : Nat,
      ((default_cert_compressors true true).get? i).map
          CertCompressorImpl.algorithm =
        ((default_cert_decompressors true true).get? i).map
          CertDecompressorImpl.algorithm :=
  C9_default_registries_aligned true true

/-- Claim C10: compression and decompression are deterministic for
every enabled algorithm: calls with identical inputs (and identical
level, or identically-sized buffers) produce identical results.  The
adapters are pure functions of their arguments, mirroring the
stateless unit-struct implementations in the source. -/
theorem C10_compress_decompress_deterministic (c : Codec)
    (i1 i2 o1 o2 : List Nat) (l1 l2 : CompressionLevel)
    (hi : i1 = i2) (hl : l1 = l2) (ho : o1 = o2) :
    ZlibRsCompressor.compress c i1 l1 = ZlibRsCompressor.compress c i2 l2 ∧
    BrotliCompressor.compress c i1 l1 = BrotliCompressor.compress c i2 l2 ∧
    ZlibRsDecompressor.decompress c i1 o1 =
      ZlibRsDecompressor.decompress c i2 o2 ∧
    BrotliDecompressor.decompress c i1 o1 =
      BrotliDecompressor.decompress c i2 o2 := by
  subst hi
  subst hl
  subst ho
  exact ⟨rfl, rfl, rfl, rfl⟩

/-- Witness for C10 at a concrete backend and inputs. -/
theorem C10_compress_decompress_deterministic_witness :
    ZlibRsCompressor.compress idCodec [5] CompressionLevel.Amortized =
      ZlibRsCompressor.compress idCodec [5] CompressionLevel.Amortized ∧
    BrotliCompressor.compress idCodec [5] CompressionLevel.Amortized =
      BrotliCompressor.compress idCodec [5] CompressionLevel.Amortized ∧
    ZlibRsDecompressor.decompress idCodec [5] [7] =
      ZlibRsDecompressor.decompress idCodec [5] [7] ∧
    BrotliDecompressor.decompress idCodec [5] [7] =
      BrotliDecompressor.decompress idCodec [5] [7] :=
  C10_compress_decompress_deterministic idCodec [5] [5] [7] [7]
    CompressionLevel.Amortized CompressionLevel.Amortized rfl rfl rfl

end Rustls
